import Mathlib

/-!
Verification development for the LuxLedger double-entry ledger service.

The definitions below are a shallow embedding of the persistence core of the
repository (the newest generation of the Drizzle repository implementation,
together with the pure posting helpers and the migration schema):

* error taxonomy and database-error translation, from src/core/errors and
  the handleDatabaseError / extractDatabaseCode / CONSTRAINT_VIOLATION_CODES
  definitions of src/db/repository;
* the PostTransaction write path (pre-validation, idempotent transaction
  insert, entry batch insert, per-account balance updates sorted by account
  id), from postTransaction and assertBalancedEntries in src/db/repository;
* the read operations (cursor-paginated listings, tenant-scoped ledger
  lookups, trial balance), from listAccounts / listTransactions /
  listEntries / findLedgersByTenant / findLedgerByIdForTenant /
  getTrialBalance.

Modelling conventions:

* UUID identifiers are modelled as naturals carrying the linear order that
  the database (and the JavaScript locale comparison used for the balance
  update ordering) imposes on them; other textual fields stay strings.
* Timestamps are modelled as naturals (createdAt); updatedAt columns are
  not modelled since no verified property mentions them.
* Postgres tables are lists of row structures; a SELECT with ORDER BY is
  modelled by sorting the filtered list.  Array.prototype.sort and the SQL
  ORDER BY are stable total-preorder sorts, modelled by insertionSort
  (any two stable sorts agree on a total preorder key).
* The int8 (bigint) column range is modelled explicitly: an arithmetic
  result outside the signed 64-bit range makes the statement fail with
  SQLSTATE 22003 (numeric_value_out_of_range), exactly the error the tests
  exercise by posting into an account already at 2^63 - 1.
* The base64url cursor wire encoding is modelled by the decoded payload
  itself (createdAt and id), which the source round-trips through JSON.
* db.transaction is modelled with Except: a callback error propagates and
  the caller keeps the pre-transaction state, which is the rollback
  semantics the driver provides; set_config row-level-security binding is
  not modelled (the application-level tenant filters are).
-/

namespace LuxLedger

/-- Stable machine codes of the domain error taxonomy (src/core/errors). -/
inductive ErrorCode
  | LEDGER_NOT_FOUND
  | INVARIANT_VIOLATION
  | REPOSITORY_ERROR
  deriving DecidableEq, Repr

/-- Shape of a raw (non-domain) error as inspected by extractDatabaseCode:
an optional SQLSTATE string code and an optional nested cause (the two
constructors encode absence or presence of the cause field). -/
inductive DbErrorLike
  | leaf (code : Option String)
  | nested (code : Option String) (cause : DbErrorLike)
  deriving DecidableEq, Repr

/-- Domain error: code, message, and the optional underlying cause attached
by the repository when translating database errors. -/
structure DomainError where
  code : ErrorCode
  message : String
  cause : Option DbErrorLike := none
  deriving DecidableEq, Repr

/-- Constructor mirroring class InvariantViolationError. -/
def invariantViolation (message : String) : DomainError :=
  { code := .INVARIANT_VIOLATION, message := message }

/-- Constructor mirroring class RepositoryError. -/
def repositoryError (message : String) : DomainError :=
  { code := .REPOSITORY_ERROR, message := message }

/-- Constructor mirroring class LedgerNotFoundError. -/
def ledgerNotFound (ledgerId : Nat) : DomainError :=
  { code := .LEDGER_NOT_FOUND, message := "Ledger not found: " ++ toString ledgerId }

/-- An exception escaping a repository operation: either one of the domain
errors (instances of DomainError in the source) or a raw database error. -/
inductive RepoException
  | domain (e : DomainError)
  | db (e : DbErrorLike)
  deriving DecidableEq, Repr

/-- SQLSTATE codes the repository treats as constraint violations
(CONSTRAINT_VIOLATION_CODES in src/db/repository). -/
def CONSTRAINT_VIOLATION_CODES : List String :=
  ["22001", "22007", "22P02", "23502", "23503", "23505", "23514"]

/-- extractDatabaseCode from src/db/repository: take the string code if
present, otherwise recurse into the cause chain. -/
def extractDatabaseCode : DbErrorLike → Option String
  | .leaf (some c) => some c
  | .leaf none => none
  | .nested (some c) _ => some c
  | .nested none cause => extractDatabaseCode cause

/-- handleDatabaseError from src/db/repository: domain errors are rethrown
unchanged; a raw error whose extracted code is a known constraint code
becomes INVARIANT_VIOLATION, anything else becomes REPOSITORY_ERROR, in both
cases with the original error attached as cause. -/
def handleDatabaseError (error : RepoException) (operation : String) : DomainError :=
  match error with
  | .domain e => e
  | .db dbe =>
    match extractDatabaseCode dbe with
    | some code =>
      if CONSTRAINT_VIOLATION_CODES.contains code then
        { code := .INVARIANT_VIOLATION
          message := "Unable to " ++ operation ++ ": data constraints violated"
          cause := some dbe }
      else
        { code := .REPOSITORY_ERROR
          message := "Unable to " ++ operation
          cause := some dbe }
    | none =>
      { code := .REPOSITORY_ERROR
        message := "Unable to " ++ operation
        cause := some dbe }

/-- Entry direction (DIRECTIONS in src/core/postings, text column in schema). -/
inductive Direction
  | DEBIT
  | CREDIT
  deriving DecidableEq, Repr

/-- PostingEntryInput from src/core/types. -/
structure PostingEntryInput where
  accountId : Nat
  direction : Direction
  amountMinor : Int
  currency : String
  deriving DecidableEq, Repr

/-- PostTransactionInput from src/core/types. -/
structure PostTransactionInput where
  tenantId : Nat
  ledgerId : Nat
  reference : String
  currency : String
  entries : List PostingEntryInput
  deriving DecidableEq, Repr

/-- PostTransactionResult from src/core/types. -/
structure PostTransactionResult where
  transactionId : Nat
  created : Bool
  deriving DecidableEq, Repr

/-- Row of the ledgers table. -/
structure LedgerRow where
  id : Nat
  tenantId : Nat
  name : String
  createdAt : Nat
  deriving DecidableEq, Repr

/-- Row of the accounts table (updatedAt is not modelled). -/
structure AccountRow where
  id : Nat
  tenantId : Nat
  ledgerId : Nat
  name : String
  currency : String
  balanceMinor : Int
  createdAt : Nat
  deriving DecidableEq, Repr

/-- Row of the transactions table. -/
structure TransactionRow where
  id : Nat
  tenantId : Nat
  ledgerId : Nat
  reference : String
  currency : String
  createdAt : Nat
  deriving DecidableEq, Repr

/-- Row of the entries table (with the denormalized tenantId column added by
the entries tenant migration). -/
structure EntryRow where
  id : Nat
  tenantId : Nat
  transactionId : Nat
  accountId : Nat
  direction : Direction
  amountMinor : Int
  currency : String
  createdAt : Nat
  deriving DecidableEq, Repr

/-- The persistent state: the ledger-core tables as lists of rows. -/
structure DBState where
  ledgers : List LedgerRow
  accounts : List AccountRow
  transactions : List TransactionRow
  entries : List EntryRow
  deriving DecidableEq, Repr

/-- Bound of the signed 64-bit bigint column type. -/
def INT64_MIN : Int := -(2 ^ 63)

/-- Upper bound of the signed 64-bit bigint column type. -/
def INT64_MAX : Int := 2 ^ 63 - 1

/-- Whether a value fits the bigint column; arithmetic leaving this range
makes the statement fail with SQLSTATE 22003. -/
def int64Range (n : Int) : Bool :=
  decide (INT64_MIN ≤ n) && decide (n ≤ INT64_MAX)

/-- The numeric_value_out_of_range database error raised by bigint overflow. -/
def numericOutOfRange : DbErrorLike := .leaf (some "22003")

/-- The foreign_key_violation database error raised by a missing referenced row. -/
def foreignKeyViolation : DbErrorLike := .leaf (some "23503")

/-- Sum of the amounts of the entries with the given direction: the running
debitTotal / creditTotal accumulators of assertBalancedEntries. -/
def sumDirection (d : Direction) (entries : List PostingEntryInput) : Int :=
  entries.foldl (fun acc e => if e.direction = d then acc + e.amountMinor else acc) 0

/-- assertBalancedEntries from src/db/repository: at least two entries and
equal debit and credit totals, otherwise InvariantViolationError. -/
def assertBalancedEntries (entries : List PostingEntryInput) : Except DomainError Unit :=
  if entries.length < 2 then
    .error (invariantViolation "transaction must have at least 2 entries")
  else if sumDirection .DEBIT entries ≠ sumDirection .CREDIT entries then
    .error (invariantViolation "total debits must equal total credits")
  else
    .ok ()

/-- Lookup of a transaction row by the (tenantId, reference) idempotency key
(the select with limit 1 in the conflict branch of postTransaction). -/
def findTransactionByKey (tenantId : Nat) (reference : String)
    (txs : List TransactionRow) : Option TransactionRow :=
  txs.find? (fun t => t.tenantId == tenantId && t.reference == reference)

/-- Insert into transactions with onConflictDoNothing on the unique key
(tenantId, reference): none when the key already exists (conflict, nothing
returned), otherwise the table extended with the new row. -/
def insertTransactionOnConflict (input : PostTransactionInput) (newTxId : Nat)
    (txs : List TransactionRow) : Option (List TransactionRow) :=
  if txs.any (fun t => t.tenantId == input.tenantId && t.reference == input.reference) then
    none
  else
    some (txs ++ [{ id := newTxId, tenantId := input.tenantId, ledgerId := input.ledgerId,
                    reference := input.reference, currency := input.currency, createdAt := 0 }])

/-- Row inserted into entries for one posting entry (id and createdAt are
database defaults, not constrained by any verified property). -/
def toEntryRow (input : PostTransactionInput) (txId : Nat) (e : PostingEntryInput) : EntryRow :=
  { id := 0, tenantId := input.tenantId, transactionId := txId, accountId := e.accountId,
    direction := e.direction, amountMinor := e.amountMinor, currency := e.currency, createdAt := 0 }

/-- Batch insert of the entry rows.  The insert fails with a database error
when a value is out of the bigint range (22003) or the accountId foreign key
references no account row (23503); otherwise the table is extended. -/
def insertEntries (input : PostTransactionInput) (txId : Nat)
    (accounts : List AccountRow) (entries : List EntryRow) :
    Except RepoException (List EntryRow) :=
  if input.entries.any (fun e => !int64Range e.amountMinor) then
    .error (.db numericOutOfRange)
  else if input.entries.any (fun e => !accounts.any (fun a => a.id == e.accountId)) then
    .error (.db foreignKeyViolation)
  else
    .ok (entries ++ input.entries.map (toEntryRow input txId))

/-- Balance delta of one entry: DEBIT decreases, CREDIT increases. -/
def entryDelta (e : PostingEntryInput) : Int :=
  if e.direction = .DEBIT then -e.amountMinor else e.amountMinor

/-- The simultaneous WHERE condition of the balance update: the account row
must match the entry account id and the transaction tenant, ledger and
currency at once. -/
def accountMatches (input : PostTransactionInput) (e : PostingEntryInput)
    (a : AccountRow) : Bool :=
  a.id == e.accountId && a.tenantId == input.tenantId &&
    a.ledgerId == input.ledgerId && a.currency == input.currency

/-- One balance update statement: add the delta to every matching row; the
statement fails with 22003 when a new balance leaves the bigint range, and
the code fails with InvariantViolationError when no row was updated. -/
def updateAccountForEntry (input : PostTransactionInput) (accounts : List AccountRow)
    (e : PostingEntryInput) : Except RepoException (List AccountRow) :=
  let matched := accounts.filter (accountMatches input e)
  if matched.any (fun a => !int64Range (a.balanceMinor + entryDelta e)) then
    .error (.db numericOutOfRange)
  else if matched.isEmpty then
    .error (.domain (invariantViolation
      "Unable to post transaction: account ledger/currency mismatch"))
  else
    .ok (accounts.map (fun a =>
      if accountMatches input e a then
        { a with balanceMinor := a.balanceMinor + entryDelta e }
      else a))

/-- entriesForBalanceUpdate: a stable sort of the input entries by ascending
accountId (the spread-and-sort with the accountId comparison in
postTransaction). -/
def sortEntriesForBalanceUpdate (entries : List PostingEntryInput) : List PostingEntryInput :=
  entries.insertionSort (fun a b => a.accountId ≤ b.accountId)

/-- The db.transaction callback of postTransaction: idempotent transaction
insert, conflict lookup, entry batch insert, then the balance updates one at
a time over the accountId-sorted entries. -/
def postTransactionTx (input : PostTransactionInput) (newTxId : Nat) (s : DBState) :
    Except RepoException (PostTransactionResult × DBState) :=
  match insertTransactionOnConflict input newTxId s.transactions with
  | none =>
    match findTransactionByKey input.tenantId input.reference s.transactions with
    | none => .error (.domain (repositoryError "Unable to resolve idempotent transaction"))
    | some existing => .ok ({ transactionId := existing.id, created := false }, s)
  | some txs =>
    match insertEntries input newTxId s.accounts s.entries with
    | .error e => .error e
    | .ok ents =>
      match (sortEntriesForBalanceUpdate input.entries).foldlM
          (updateAccountForEntry input) s.accounts with
      | .error e => .error e
      | .ok accs =>
        .ok ({ transactionId := newTxId, created := true },
             { s with transactions := txs, entries := ents, accounts := accs })

/-- postTransaction from src/db/repository: pre-validate outside the
database transaction, run the transactional callback (a callback error rolls
the transaction back, so the caller keeps the prior state), and route every
escaping error through handleDatabaseError. -/
def postTransaction (input : PostTransactionInput) (newTxId : Nat) (s : DBState) :
    Except DomainError (PostTransactionResult × DBState) :=
  match assertBalancedEntries input.entries with
  | .error e => .error (handleDatabaseError (.domain e) "post transaction")
  | .ok _ =>
    match postTransactionTx input newTxId s with
    | .ok r => .ok r
    | .error e => .error (handleDatabaseError e "post transaction")

/-- Decoded cursor payload (created_at and id); the base64url JSON wire form
round-trips through exactly these two fields. -/
structure CursorValue where
  createdAt : Nat
  id : Nat
  deriving DecidableEq, Repr

/-- encodeCursor from src/db/repository, modelled at the payload level. -/
def encodeCursor (createdAt : Nat) (id : Nat) : CursorValue :=
  { createdAt := createdAt, id := id }

/-- PaginationQuery from src/core/types, with the cursor already decoded. -/
structure PaginationQuery where
  tenantId : Nat
  limit : Nat
  cursor : Option CursorValue
  deriving DecidableEq, Repr

/-- PaginatedResult from src/core/types. -/
structure PaginatedResult (α : Type) where
  data : List α
  nextCursor : Option CursorValue
  deriving DecidableEq, Repr

/-- The cursor WHERE clause: strictly after the cursor position in the
(createdAt, id) order, or no restriction without a cursor. -/
def cursorPredicate (cursor : Option CursorValue) (createdAt : Nat) (id : Nat) : Bool :=
  match cursor with
  | none => true
  | some c => c.createdAt < createdAt || (createdAt == c.createdAt && c.id < id)

/-- Lexicographic order on the (createdAt, id) sort key used by every ORDER
BY createdAt ASC, id ASC in the repository. -/
def keyLE (a b : Nat × Nat) : Prop :=
  a.1 < b.1 ∨ (a.1 = b.1 ∧ a.2 ≤ b.2)

instance : DecidableRel keyLE := fun a b =>
  inferInstanceAs (Decidable (a.1 < b.1 ∨ (a.1 = b.1 ∧ a.2 ≤ b.2)))

/-- An ORDER BY createdAt ASC, id ASC result set: the filtered rows in the
stable (createdAt, id) order. -/
def sortRows {ρ : Type} (keyOf : ρ → Nat × Nat) (rows : List ρ) : List ρ :=
  rows.insertionSort (fun a b => keyLE (keyOf a) (keyOf b))

/-- The row set a listing query fetches: the filtered rows in (createdAt,
id) order, limited to limit + 1 rows. -/
def fetchedRows {ρ : Type} (keyOf : ρ → Nat × Nat) (pred : ρ → Bool)
    (limit : Nat) (rows : List ρ) : List ρ :=
  (sortRows keyOf (rows.filter pred)).take (limit + 1)

/-- The shared page shape of listAccounts, listTransactions and listEntries:
fetch limit + 1 rows of the sorted filtered set, drop the extra row when it
is present and emit the cursor of the last returned row, otherwise return
everything with no cursor. -/
def paginateRows {ρ : Type} (keyOf : ρ → Nat × Nat) (pred : ρ → Bool)
    (limit : Nat) (rows : List ρ) : PaginatedResult ρ :=
  { data :=
      if limit < (fetchedRows keyOf pred limit rows).length
      then (fetchedRows keyOf pred limit rows).take limit
      else fetchedRows keyOf pred limit rows
    nextCursor :=
      if limit < (fetchedRows keyOf pred limit rows).length then
        match ((fetchedRows keyOf pred limit rows).take limit).getLast? with
        | some last => some (encodeCursor (keyOf last).1 (keyOf last).2)
        | none => none
      else none }

/-- listAccounts from src/db/repository: tenant filter, cursor filter,
(createdAt, id) order, limit + 1 fetch. -/
def listAccounts (q : PaginationQuery) (s : DBState) : PaginatedResult AccountRow :=
  paginateRows (fun a => (a.createdAt, a.id))
    (fun a => a.tenantId == q.tenantId && cursorPredicate q.cursor a.createdAt a.id)
    q.limit s.accounts

/-- listTransactions from src/db/repository. -/
def listTransactions (q : PaginationQuery) (s : DBState) : PaginatedResult TransactionRow :=
  paginateRows (fun t => (t.createdAt, t.id))
    (fun t => t.tenantId == q.tenantId && cursorPredicate q.cursor t.createdAt t.id)
    q.limit s.transactions

/-- listEntries from src/db/repository, filtering on the denormalized
tenantId column of the entries table. -/
def listEntries (q : PaginationQuery) (s : DBState) : PaginatedResult EntryRow :=
  paginateRows (fun e => (e.createdAt, e.id))
    (fun e => e.tenantId == q.tenantId && cursorPredicate q.cursor e.createdAt e.id)
    q.limit s.entries

/-- findLedgersByTenant from src/db/repository. -/
def findLedgersByTenant (tenantId : Nat) (s : DBState) : List LedgerRow :=
  sortRows (fun l => (l.createdAt, l.id)) (s.ledgers.filter (fun l => l.tenantId == tenantId))

/-- findLedgerByIdForTenant from src/db/repository: tenant and id matched
together, first row of the limit 1 select. -/
def findLedgerByIdForTenant (tenantId : Nat) (id : Nat) (s : DBState) : Option LedgerRow :=
  s.ledgers.find? (fun l => l.tenantId == tenantId && l.id == id)

/-- TrialBalanceQuery from src/core/types. -/
structure TrialBalanceQuery where
  tenantId : Nat
  ledgerId : Nat
  deriving DecidableEq, Repr

/-- TrialBalanceAccount from src/core/types (code is the account id). -/
structure TrialBalanceAccount where
  accountId : Nat
  code : Nat
  name : String
  normalBalance : Direction
  balanceMinor : Int
  deriving DecidableEq, Repr

/-- TrialBalance from src/core/types. -/
structure TrialBalance where
  ledgerId : Nat
  accounts : List TrialBalanceAccount
  totalDebitsMinor : Int
  totalCreditsMinor : Int
  deriving DecidableEq, Repr

/-- absoluteBalance computed per row inside getTrialBalance. -/
def absoluteBalance (b : Int) : Int := if b < 0 then -b else b

/-- Per-row classification of getTrialBalance: a balance at or below zero is
DEBIT normal, the reported balance is the absolute value. -/
def toTrialBalanceAccount (row : AccountRow) : TrialBalanceAccount :=
  { accountId := row.id, code := row.id, name := row.name,
    normalBalance := if row.balanceMinor ≤ 0 then .DEBIT else .CREDIT,
    balanceMinor := absoluteBalance row.balanceMinor }

/-- The running totalDebitsMinor / totalCreditsMinor accumulators of
getTrialBalance over the account rows in order. -/
def accumulateTotals (rows : List AccountRow) : Int × Int :=
  rows.foldl (fun t row =>
    if row.balanceMinor ≤ 0 then (t.1 + absoluteBalance row.balanceMinor, t.2)
    else (t.1, t.2 + absoluteBalance row.balanceMinor)) (0, 0)

/-- The account rows getTrialBalance scans: the ledger's accounts of the
tenant, ordered by (createdAt, id). -/
def trialBalanceAccountRows (q : TrialBalanceQuery) (s : DBState) : List AccountRow :=
  sortRows (fun a => (a.createdAt, a.id))
    (s.accounts.filter (fun a => a.ledgerId == q.ledgerId && a.tenantId == q.tenantId))

/-- getTrialBalance from src/db/repository: tenant-scoped ledger existence
check, classification and accumulation over the ordered account rows, and a
RepositoryError when the two totals diverge. -/
def getTrialBalance (q : TrialBalanceQuery) (s : DBState) : Except DomainError TrialBalance :=
  match s.ledgers.find? (fun l => l.id == q.ledgerId && l.tenantId == q.tenantId) with
  | none => .error (ledgerNotFound q.ledgerId)
  | some _ =>
    let accountRows := trialBalanceAccountRows q s
    let totals := accumulateTotals accountRows
    if totals.1 ≠ totals.2 then
      .error (repositoryError "trial balance totals mismatch")
    else
      .ok { ledgerId := q.ledgerId, accounts := accountRows.map toTrialBalanceAccount,
            totalDebitsMinor := totals.1, totalCreditsMinor := totals.2 }

instance {ε α : Type} [DecidableEq ε] [DecidableEq α] : DecidableEq (Except ε α) := fun a b =>
  match a, b with
  | .error x, .error y =>
    if h : x = y then .isTrue (by rw [h]) else .isFalse (fun hc => by cases hc; exact h rfl)
  | .error _, .ok _ => .isFalse (fun hc => Except.noConfusion hc)
  | .ok _, .error _ => .isFalse (fun hc => Except.noConfusion hc)
  | .ok x, .ok y =>
    if h : x = y then .isTrue (by rw [h]) else .isFalse (fun hc => by cases hc; exact h rfl)

/-- Signed contribution of a committed entry row to its account balance:
CREDIT positive, DEBIT negative. -/
def entryRowSigned (r : EntryRow) : Int :=
  if r.direction = .DEBIT then -r.amountMinor else r.amountMinor

/-- Algebraic sum of the committed entry contributions for one account. -/
def signedEntrySum (entries : List EntryRow) (accountId : Nat) : Int :=
  ((entries.filter (fun r => r.accountId == accountId)).map entryRowSigned).sum

/-- Total delta an account row receives from the balance updates of one
posting: the sum of the deltas of the entries whose update statement matches
the row. -/
def matchedDelta (input : PostTransactionInput) (es : List PostingEntryInput)
    (a : AccountRow) : Int :=
  ((es.filter (fun e => accountMatches input e a)).map entryDelta).sum

/-- The transaction row a fresh posting commits. -/
def newTransactionRow (input : PostTransactionInput) (newTxId : Nat) : TransactionRow :=
  { id := newTxId, tenantId := input.tenantId, ledgerId := input.ledgerId,
    reference := input.reference, currency := input.currency, createdAt := 0 }

/-- States reachable from a start state through successful postTransaction
calls (any inputs, any fresh transaction ids). -/
inductive Reaches : DBState → DBState → Prop
  | refl (s : DBState) : Reaches s s
  | step {s t u : DBState} (input : PostTransactionInput) (newTxId : Nat)
      (r : PostTransactionResult) (htu : Reaches s t)
      (hp : postTransaction input newTxId t = .ok (r, u)) : Reaches s u

/-- Account row fixture for the concrete examples. -/
def mkAccount (i tenant ledger : Nat) (cur : String) (bal : Int) : AccountRow :=
  { id := i, tenantId := tenant, ledgerId := ledger, name := "Account " ++ toString i,
    currency := cur, balanceMinor := bal, createdAt := i }

/-- Ledger row fixture for the concrete examples. -/
def mkLedger (i tenant : Nat) : LedgerRow :=
  { id := i, tenantId := tenant, name := "Ledger " ++ toString i, createdAt := 0 }

/-- Fresh two-account state used by the pre-validation example. -/
def c1State : DBState :=
  { ledgers := [mkLedger 3 7],
    accounts := [mkAccount 1 7 3 "USD" 0, mkAccount 2 7 3 "USD" 0],
    transactions := [], entries := [] }

/-- Posting whose entries all have amountMinor = 0 (balanced, two entries). -/
def c1Input : PostTransactionInput :=
  { tenantId := 7, ledgerId := 3, reference := "zero-amounts", currency := "USD",
    entries := [{ accountId := 1, direction := .DEBIT, amountMinor := 0, currency := "USD" },
                { accountId := 2, direction := .CREDIT, amountMinor := 0, currency := "USD" }] }

/-- State committed by the zero-amount posting. -/
def c1Posted : DBState :=
  { c1State with
    transactions := [newTransactionRow c1Input 99],
    entries := c1Input.entries.map (toEntryRow c1Input 99) }

/-- Unbalanced posting (debits 100, credits 99). -/
def c1Unbalanced : PostTransactionInput :=
  { tenantId := 7, ledgerId := 3, reference := "unbalanced", currency := "USD",
    entries := [{ accountId := 1, direction := .DEBIT, amountMinor := 100, currency := "USD" },
                { accountId := 2, direction := .CREDIT, amountMinor := 99, currency := "USD" }] }

/-- Committed transaction row used by the idempotency examples. -/
def c2Tx : TransactionRow :=
  { id := 5, tenantId := 7, ledgerId := 3, reference := "r1", currency := "USD", createdAt := 1 }

/-- State holding one committed transaction with reference r1 for tenant 7. -/
def c2State : DBState :=
  { ledgers := [mkLedger 3 7],
    accounts := [mkAccount 1 7 3 "USD" 0, mkAccount 2 7 3 "USD" 0],
    transactions := [c2Tx], entries := [] }

/-- Single-entry retry of reference r1 (fails pre-validation). -/
def c2SingleEntryInput : PostTransactionInput :=
  { tenantId := 7, ledgerId := 3, reference := "r1", currency := "USD",
    entries := [{ accountId := 1, direction := .DEBIT, amountMinor := 100, currency := "USD" }] }

/-- Balanced retry of reference r1. -/
def c2RetryInput : PostTransactionInput :=
  { tenantId := 7, ledgerId := 3, reference := "r1", currency := "USD",
    entries := [{ accountId := 1, direction := .DEBIT, amountMinor := 100, currency := "USD" },
                { accountId := 2, direction := .CREDIT, amountMinor := 100, currency := "USD" }] }

/-- Balanced retry of reference r1 whose entries reference accounts 41 and 42,
which exist in no state of the examples (it would fail the balance-update
account matching if posted fresh). -/
def c10Divergent : PostTransactionInput :=
  { tenantId := 7, ledgerId := 3, reference := "r1", currency := "EUR",
    entries := [{ accountId := 41, direction := .DEBIT, amountMinor := 7, currency := "EUR" },
                { accountId := 42, direction := .CREDIT, amountMinor := 7, currency := "EUR" }] }

/-- Fresh two-account state for the balance-law example. -/
def c3Start : DBState :=
  { ledgers := [mkLedger 3 7],
    accounts := [mkAccount 1 7 3 "USD" 0, mkAccount 2 7 3 "USD" 0],
    transactions := [], entries := [] }

/-- Balanced posting of 100 from account 1 (DEBIT) to account 2 (CREDIT). -/
def c3Input : PostTransactionInput :=
  { tenantId := 7, ledgerId := 3, reference := "s1", currency := "USD",
    entries := [{ accountId := 1, direction := .DEBIT, amountMinor := 100, currency := "USD" },
                { accountId := 2, direction := .CREDIT, amountMinor := 100, currency := "USD" }] }

/-- State committed by the balanced posting of 100. -/
def c3Posted : DBState :=
  { ledgers := [mkLedger 3 7],
    accounts := [mkAccount 1 7 3 "USD" (-100), mkAccount 2 7 3 "USD" 100],
    transactions := [newTransactionRow c3Input 99],
    entries := c3Input.entries.map (toEntryRow c3Input 99) }

/-- State whose account 1 is a EUR account, used to make a USD posting fail
its balance update inside the database transaction. -/
def c4State : DBState :=
  { ledgers := [mkLedger 3 7],
    accounts := [mkAccount 1 7 3 "EUR" 0, mkAccount 2 7 3 "USD" 0],
    transactions := [], entries := [] }

/-- Balanced USD posting touching the EUR account 1. -/
def c4Input : PostTransactionInput :=
  { tenantId := 7, ledgerId := 3, reference := "s2", currency := "USD",
    entries := [{ accountId := 1, direction := .DEBIT, amountMinor := 10, currency := "USD" },
                { accountId := 2, direction := .CREDIT, amountMinor := 10, currency := "USD" }] }

/-- State holding only tenant 7 rows. -/
def c5Base : DBState :=
  { ledgers := [mkLedger 3 7],
    accounts := [mkAccount 1 7 3 "USD" (-100), mkAccount 2 7 3 "USD" 100],
    transactions := [c2Tx],
    entries := [{ id := 10, tenantId := 7, transactionId := 5, accountId := 1,
                  direction := .DEBIT, amountMinor := 100, currency := "USD", createdAt := 1 },
                { id := 11, tenantId := 7, transactionId := 5, accountId := 2,
                  direction := .CREDIT, amountMinor := 100, currency := "USD", createdAt := 2 }] }

/-- The same state with rows of the unrelated tenant 8 interleaved in. -/
def c5WithB : DBState :=
  { ledgers := c5Base.ledgers ++ [mkLedger 4 8],
    accounts := c5Base.accounts ++ [mkAccount 9 8 4 "USD" 0],
    transactions := c5Base.transactions ++
      [{ id := 6, tenantId := 8, ledgerId := 4, reference := "b1",
         currency := "USD", createdAt := 9 }],
    entries := c5Base.entries ++
      [{ id := 12, tenantId := 8, transactionId := 6, accountId := 9,
         direction := .DEBIT, amountMinor := 999, currency := "USD", createdAt := 9 }] }

/-- Tenant 7 listing query with limit 2. -/
def c5Query : PaginationQuery := { tenantId := 7, limit := 2, cursor := none }

/-- Tenant 7 trial-balance query for ledger 3. -/
def c5TrialQuery : TrialBalanceQuery := { tenantId := 7, ledgerId := 3 }

/-- Ledger with balances -100, 100 and 0 for the trial-balance example. -/
def c6State : DBState :=
  { ledgers := [mkLedger 3 7],
    accounts := [mkAccount 1 7 3 "USD" (-100), mkAccount 2 7 3 "USD" 100,
                 mkAccount 4 7 3 "USD" 0],
    transactions := [], entries := [] }

/-- Trial-balance query of the example. -/
def c6Query : TrialBalanceQuery := { tenantId := 7, ledgerId := 3 }

/-- Two entries listed in descending account order. -/
def c7Entries : List PostingEntryInput :=
  [{ accountId := 2, direction := .CREDIT, amountMinor := 100, currency := "USD" },
   { accountId := 1, direction := .DEBIT, amountMinor := 100, currency := "USD" }]

/-- The same two entries submitted in the opposite order. -/
def c7EntriesSwapped : List PostingEntryInput :=
  [{ accountId := 1, direction := .DEBIT, amountMinor := 100, currency := "USD" },
   { accountId := 2, direction := .CREDIT, amountMinor := 100, currency := "USD" }]

/-- Three-account state for the pagination example (limit 2 fetches 3 rows). -/
def c8State : DBState :=
  { ledgers := [],
    accounts := [mkAccount 1 7 3 "USD" 0, mkAccount 2 7 3 "USD" 0, mkAccount 4 7 3 "USD" 0],
    transactions := [], entries := [] }

/-- Listing query with limit 2 for the pagination example. -/
def c8Query : PaginationQuery := { tenantId := 7, limit := 2, cursor := none }

/-- The page behaviour claimed for one listing call: the fetched set is
ordered by (createdAt, id), holds at most limit + 1 rows; a full fetch of
limit + 1 rows yields exactly the first limit rows as the page plus the
cursor of the row at index limit - 1 (the extra row dropped); a fetch of
limit or fewer rows yields all of them with a null cursor. -/
def PageSpec {ρ : Type} (keyOf : ρ → Nat × Nat) (pred : ρ → Bool) (limit : Nat)
    (rows : List ρ) (result : PaginatedResult ρ) : Prop :=
  List.Sorted (fun a b => keyLE (keyOf a) (keyOf b)) (fetchedRows keyOf pred limit rows) ∧
  (fetchedRows keyOf pred limit rows).length ≤ limit + 1 ∧
  ((fetchedRows keyOf pred limit rows).length = limit + 1 →
    result.data = (fetchedRows keyOf pred limit rows).take limit ∧
    result.nextCursor = ((fetchedRows keyOf pred limit rows)[limit - 1]?).map
      (fun r => encodeCursor (keyOf r).1 (keyOf r).2)) ∧
  ((fetchedRows keyOf pred limit rows).length ≤ limit →
    result.data = fetchedRows keyOf pred limit rows ∧
    result.nextCursor = none)

theorem keyLE_total (p q : Nat × Nat) : keyLE p q ∨ keyLE q p := by
  rcases p with ⟨a, b⟩
  rcases q with ⟨c, d⟩
  simp only [keyLE]
  omega

theorem keyLE_trans (p q r : Nat × Nat) (h1 : keyLE p q) (h2 : keyLE q r) : keyLE p r := by
  rcases p with ⟨a, b⟩
  rcases q with ⟨c, d⟩
  rcases r with ⟨e, f⟩
  simp only [keyLE] at *
  omega

theorem sortRows_sorted {ρ : Type} (keyOf : ρ → Nat × Nat) (rows : List ρ) :
    List.Sorted (fun a b => keyLE (keyOf a) (keyOf b)) (sortRows keyOf rows) := by
  haveI : IsTotal ρ (fun a b => keyLE (keyOf a) (keyOf b)) :=
    ⟨fun a b => keyLE_total (keyOf a) (keyOf b)⟩
  haveI : IsTrans ρ (fun a b => keyLE (keyOf a) (keyOf b)) :=
    ⟨fun a b c => keyLE_trans (keyOf a) (keyOf b) (keyOf c)⟩
  exact List.sorted_insertionSort _ rows

theorem sortRows_perm {ρ : Type} (keyOf : ρ → Nat × Nat) (rows : List ρ) :
    (sortRows keyOf rows).Perm rows :=
  List.perm_insertionSort _ rows

theorem find?_and_eq_find?_filter {α : Type} (p q : α → Bool) (l : List α) :
    l.find? (fun a => p a && q a) = (l.filter p).find? q := by
  induction l with
  | nil => rfl
  | cons hd tl ih =>
    by_cases hp : p hd = true
    · by_cases hq : q hd = true
      · rw [List.filter_cons_of_pos hp, List.find?_cons_of_pos _ (by simp [hp, hq]),
            List.find?_cons_of_pos _ hq]
      · rw [List.filter_cons_of_pos hp, List.find?_cons_of_neg _ (by simp [hp, hq]),
            List.find?_cons_of_neg _ (by simp [hq]), ih]
    · rw [List.filter_cons_of_neg (by simp [hp]), List.find?_cons_of_neg _ (by simp [hp]), ih]

theorem mem_paginate_data {ρ : Type} (keyOf : ρ → Nat × Nat) (pred : ρ → Bool)
    (limit : Nat) (rows : List ρ) (a : ρ)
    (h : a ∈ (paginateRows keyOf pred limit rows).data) : a ∈ rows ∧ pred a = true := by
  have hf : a ∈ fetchedRows keyOf pred limit rows := by
    by_cases hn : limit < (fetchedRows keyOf pred limit rows).length
    · have h2 : a ∈ (fetchedRows keyOf pred limit rows).take limit := by
        have hd : (paginateRows keyOf pred limit rows).data =
            (fetchedRows keyOf pred limit rows).take limit := by
          simp only [paginateRows, if_pos hn]
        rw [hd] at h
        exact h
      exact List.mem_of_mem_take h2
    · have hd : (paginateRows keyOf pred limit rows).data =
          fetchedRows keyOf pred limit rows := by
        simp only [paginateRows, if_neg hn]
      rw [hd] at h
      exact h
  have hs : a ∈ sortRows keyOf (rows.filter pred) := List.mem_of_mem_take hf
  have hmem : a ∈ rows.filter pred :=
    (sortRows_perm keyOf (rows.filter pred)).mem_iff.1 hs
  exact ⟨List.mem_filter.1 hmem |>.1, List.mem_filter.1 hmem |>.2⟩

theorem accountMatches_balance_update (input : PostTransactionInput)
    (e2 : PostingEntryInput) (a : AccountRow) (d : Int) :
    accountMatches input e2 { a with balanceMinor := d } = accountMatches input e2 a := rfl

theorem matchedDelta_cons (input : PostTransactionInput) (e : PostingEntryInput)
    (es : List PostingEntryInput) (a : AccountRow) :
    matchedDelta input (e :: es) a =
      (if accountMatches input e a then entryDelta e else 0) + matchedDelta input es a := by
  by_cases h : accountMatches input e a
  · simp [matchedDelta, List.filter, h]
  · simp [matchedDelta, List.filter, h]

theorem updateAccountForEntry_ok {input : PostTransactionInput}
    {accounts accounts2 : List AccountRow} {e : PostingEntryInput}
    (h : updateAccountForEntry input accounts e = .ok accounts2) :
    (∃ a ∈ accounts, accountMatches input e a = true) ∧
    accounts2 = accounts.map (fun a =>
      if accountMatches input e a then
        { a with balanceMinor := a.balanceMinor + entryDelta e }
      else a) := by
  unfold updateAccountForEntry at h
  by_cases h1 : (accounts.filter (accountMatches input e)).any
      (fun a => !int64Range (a.balanceMinor + entryDelta e)) = true
  · simp [h1] at h
  · by_cases h2 : (accounts.filter (accountMatches input e)).isEmpty = true
    · simp [h1, h2] at h
    · have hne : accounts.filter (accountMatches input e) ≠ [] := by
        intro hnil
        simp [hnil] at h2
      rcases List.exists_mem_of_ne_nil _ hne with ⟨a, ha⟩
      refine ⟨⟨a, (List.mem_filter.1 ha).1, (List.mem_filter.1 ha).2⟩, ?_⟩
      simp [h1, h2] at h
      exact h.symm

theorem foldUpdates_ok (input : PostTransactionInput) :
    ∀ (es : List PostingEntryInput) (accounts accounts2 : List AccountRow),
    es.foldlM (updateAccountForEntry input) accounts = .ok accounts2 →
    (∀ e ∈ es, ∃ a ∈ accounts, accountMatches input e a = true) ∧
    accounts2 = accounts.map (fun a =>
      { a with balanceMinor := a.balanceMinor + matchedDelta input es a }) := by
  intro es
  induction es with
  | nil =>
    intro accounts accounts2 h
    have h3 : (Except.ok accounts : Except RepoException (List AccountRow)) = .ok accounts2 := h
    have h2 : accounts2 = accounts := (Except.ok.inj h3).symm
    subst h2
    refine ⟨by simp, ?_⟩
    have hid : ∀ a ∈ accounts2,
        ({ a with balanceMinor := a.balanceMinor + matchedDelta input [] a } : AccountRow) = a := by
      intro a _
      simp [matchedDelta]
    exact ((List.map_congr_left hid).trans (List.map_id accounts2)).symm
  | cons e es ih =>
    intro accounts accounts2 h
    rw [List.foldlM_cons] at h
    cases hstep : updateAccountForEntry input accounts e with
    | error err =>
      rw [hstep] at h
      have h3 : (Except.error err : Except RepoException (List AccountRow)) = .ok accounts2 := h
      exact Except.noConfusion h3
    | ok acc1 =>
      rw [hstep] at h
      have h2 : es.foldlM (updateAccountForEntry input) acc1 = .ok accounts2 := h
      replace h := h2
      rcases ih acc1 accounts2 h with ⟨hex, hacc⟩
      rcases updateAccountForEntry_ok hstep with ⟨hex1, hacc1⟩
      constructor
      · intro e2 he2
        rcases List.mem_cons.1 he2 with rfl | he2
        · exact hex1
        · rcases hex e2 he2 with ⟨a1, ha1, hm1⟩
          rw [hacc1] at ha1
          rcases List.mem_map.1 ha1 with ⟨a0, ha0, rfl⟩
          refine ⟨a0, ha0, ?_⟩
          by_cases hm0 : accountMatches input e a0 = true
          · rw [if_pos hm0] at hm1
            exact hm1
          · rw [if_neg hm0] at hm1
            exact hm1
      · rw [hacc, hacc1, List.map_map]
        apply List.map_congr_left
        intro a _
        simp only [Function.comp_apply]
        by_cases hm0 : accountMatches input e a = true
        · rw [if_pos hm0]
          have hv : (a.balanceMinor + entryDelta e) + matchedDelta input es a
              = a.balanceMinor + matchedDelta input (e :: es) a := by
            rw [matchedDelta_cons, if_pos hm0, add_assoc]
          exact congrArg (fun v => ({ a with balanceMinor := v } : AccountRow)) hv
        · rw [if_neg hm0]
          have hv : a.balanceMinor + matchedDelta input es a
              = a.balanceMinor + matchedDelta input (e :: es) a := by
            rw [matchedDelta_cons, if_neg hm0, zero_add]
          exact congrArg (fun v => ({ a with balanceMinor := v } : AccountRow)) hv

theorem postTransaction_conflict (input : PostTransactionInput) (n : Nat) (s : DBState)
    (t : TransactionRow)
    (hb : assertBalancedEntries input.entries = .ok ())
    (hf : findTransactionByKey input.tenantId input.reference s.transactions = some t) :
    postTransaction input n s = .ok ({ transactionId := t.id, created := false }, s) := by
  have hmem := List.mem_of_find?_eq_some hf
  have hp := List.find?_some hf
  have hany : s.transactions.any
      (fun t2 => t2.tenantId == input.tenantId && t2.reference == input.reference) = true :=
    List.any_eq_true.2 ⟨t, hmem, hp⟩
  have hins : insertTransactionOnConflict input n s.transactions = none := by
    simp only [insertTransactionOnConflict, hany, if_pos]
  simp only [postTransaction, hb, postTransactionTx, hins, findTransactionByKey] at *
  rw [hf]

theorem postTransaction_ok_cases {input : PostTransactionInput} {n : Nat} {s : DBState}
    {r : PostTransactionResult} {s2 : DBState}
    (h : postTransaction input n s = .ok (r, s2)) :
    (r.created = false ∧ s2 = s ∧
      ∃ t, findTransactionByKey input.tenantId input.reference s.transactions = some t ∧
        r.transactionId = t.id) ∨
    (r.created = true ∧ r.transactionId = n ∧
      s2.ledgers = s.ledgers ∧
      s2.transactions = s.transactions ++ [newTransactionRow input n] ∧
      s2.entries = s.entries ++ input.entries.map (toEntryRow input n) ∧
      (∀ e ∈ input.entries, ∃ a ∈ s.accounts, accountMatches input e a = true) ∧
      s2.accounts = s.accounts.map (fun a =>
        { a with balanceMinor := a.balanceMinor + matchedDelta input input.entries a })) := by
  unfold postTransaction at h
  cases hassert : assertBalancedEntries input.entries with
  | error e =>
    rw [hassert] at h
    exact Except.noConfusion h
  | ok u =>
    rw [hassert] at h
    cases htx : postTransactionTx input n s with
    | error e =>
      rw [htx] at h
      exact Except.noConfusion h
    | ok pr =>
      rw [htx] at h
      have hpr : pr = (r, s2) := Except.ok.inj h
      subst hpr
      unfold postTransactionTx at htx
      cases hins : insertTransactionOnConflict input n s.transactions with
      | none =>
        rw [hins] at htx
        cases hfind : findTransactionByKey input.tenantId input.reference s.transactions with
        | none =>
          rw [hfind] at htx
          exact Except.noConfusion htx
        | some t =>
          rw [hfind] at htx
          have hpair := Except.ok.inj htx
          have h1 : ({ transactionId := t.id, created := false } : PostTransactionResult) = r :=
            congrArg Prod.fst hpair
          have h2 : s = s2 := congrArg Prod.snd hpair
          left
          refine ⟨?_, h2.symm, t, rfl, ?_⟩
          · rw [← h1]
          · rw [← h1]
      | some txs =>
        rw [hins] at htx
        have htxs : txs = s.transactions ++ [newTransactionRow input n] := by
          unfold insertTransactionOnConflict at hins
          by_cases hc : s.transactions.any
              (fun t2 => t2.tenantId == input.tenantId && t2.reference == input.reference) = true
          · rw [if_pos hc] at hins
            exact Option.noConfusion hins
          · rw [if_neg hc] at hins
            exact (Option.some.inj hins).symm
        cases hent : insertEntries input n s.accounts s.entries with
        | error e =>
          rw [hent] at htx
          exact Except.noConfusion htx
        | ok ents =>
          rw [hent] at htx
          have hents : ents = s.entries ++ input.entries.map (toEntryRow input n) := by
            unfold insertEntries at hent
            by_cases h1 : input.entries.any (fun e => !int64Range e.amountMinor) = true
            · rw [if_pos h1] at hent
              exact Except.noConfusion hent
            · rw [if_neg h1] at hent
              by_cases h2 : input.entries.any
                  (fun e => !s.accounts.any (fun a => a.id == e.accountId)) = true
              · rw [if_pos h2] at hent
                exact Except.noConfusion hent
              · rw [if_neg h2] at hent
                exact (Except.ok.inj hent).symm
          cases hfold : (sortEntriesForBalanceUpdate input.entries).foldlM
              (updateAccountForEntry input) s.accounts with
          | error e =>
            rw [hfold] at htx
            exact Except.noConfusion htx
          | ok accs =>
            rw [hfold] at htx
            have hpair := Except.ok.inj htx
            rcases foldUpdates_ok input (sortEntriesForBalanceUpdate input.entries)
                s.accounts accs hfold with ⟨hex, haccs⟩
            have hperm : (sortEntriesForBalanceUpdate input.entries).Perm input.entries :=
              List.perm_insertionSort _ input.entries
            right
            have hr : r = { transactionId := n, created := true } := by
              have := congrArg Prod.fst hpair
              exact this.symm
            have hs2 : s2 = { s with transactions := txs, entries := ents, accounts := accs } := by
              have := congrArg Prod.snd hpair
              exact this.symm
            subst hr hs2
            refine ⟨rfl, rfl, rfl, htxs, hents, ?_, ?_⟩
            · intro e he
              exact hex e (hperm.symm.subset he)
            · rw [haccs]
              apply List.map_congr_left
              intro a _
              have hmd : matchedDelta input (sortEntriesForBalanceUpdate input.entries) a =
                  matchedDelta input input.entries a := by
                unfold matchedDelta
                exact ((hperm.filter _).map entryDelta).sum_eq
              rw [hmd]

theorem signedEntrySum_append (e1 e2 : List EntryRow) (i : Nat) :
    signedEntrySum (e1 ++ e2) i = signedEntrySum e1 i + signedEntrySum e2 i := by
  unfold signedEntrySum
  rw [List.filter_append, List.map_append, List.sum_append]

theorem signedEntrySum_newRows (input : PostTransactionInput) (n : Nat) (i : Nat) :
    signedEntrySum (input.entries.map (toEntryRow input n)) i =
      ((input.entries.filter (fun e => e.accountId == i)).map entryDelta).sum := by
  unfold signedEntrySum
  rw [List.filter_map, List.map_map]
  rfl

theorem post_preserves_inv {t u : DBState} (input : PostTransactionInput) (n : Nat)
    (r : PostTransactionResult)
    (hp : postTransaction input n t = .ok (r, u))
    (hnd : (t.accounts.map (fun a => a.id)).Nodup)
    (hbal : ∀ a ∈ t.accounts, a.balanceMinor = signedEntrySum t.entries a.id) :
    (u.accounts.map (fun a => a.id)).Nodup ∧
    (∀ a ∈ u.accounts, a.balanceMinor = signedEntrySum u.entries a.id) := by
  rcases postTransaction_ok_cases hp with ⟨_, rfl, _⟩ | ⟨_, _, _, _, hent, hex, hacc⟩
  · exact ⟨hnd, hbal⟩
  · constructor
    · rw [hacc, List.map_map]
      exact hnd
    · intro a2 ha2
      rw [hacc] at ha2
      rcases List.mem_map.1 ha2 with ⟨a, ha, rfl⟩
      have hid : ∀ e ∈ input.entries, accountMatches input e a = (e.accountId == a.id) := by
        intro e he
        rcases hex e he with ⟨b, hb, hmb⟩
        by_cases hidq : e.accountId = a.id
        · have hbid : b.id = e.accountId := by
            have hmb2 := hmb
            unfold accountMatches at hmb2
            simp only [Bool.and_eq_true, beq_iff_eq] at hmb2
            exact hmb2.1.1.1
          have hba : b = a := List.inj_on_of_nodup_map hnd hb ha (by rw [hbid, hidq])
          subst hba
          simp [hmb, hidq]
        · have hfst : (a.id == e.accountId) = false :=
            beq_eq_false_iff_ne.2 (fun hh => hidq hh.symm)
          have hmfa : accountMatches input e a = false := by
            unfold accountMatches
            rw [hfst]
            simp
          have hsnd : (e.accountId == a.id) = false :=
            beq_eq_false_iff_ne.2 hidq
          rw [hmfa, hsnd]
      have hmd : matchedDelta input input.entries a =
          ((input.entries.filter (fun e => e.accountId == a.id)).map entryDelta).sum := by
        unfold matchedDelta
        rw [List.filter_congr hid]
      show a.balanceMinor + matchedDelta input input.entries a = signedEntrySum u.entries a.id
      calc a.balanceMinor + matchedDelta input input.entries a
          = signedEntrySum t.entries a.id +
              signedEntrySum (input.entries.map (toEntryRow input n)) a.id := by
            rw [hbal a ha, hmd, signedEntrySum_newRows]
        _ = signedEntrySum u.entries a.id := by rw [hent, signedEntrySum_append]

theorem reaches_inv {s0 s : DBState} (hr : Reaches s0 s)
    (hnd : (s0.accounts.map (fun a => a.id)).Nodup)
    (hbal : ∀ a ∈ s0.accounts, a.balanceMinor = signedEntrySum s0.entries a.id) :
    (s.accounts.map (fun a => a.id)).Nodup ∧
    (∀ a ∈ s.accounts, a.balanceMinor = signedEntrySum s.entries a.id) := by
  induction hr with
  | refl => exact ⟨hnd, hbal⟩
  | step input newTxId r htu hp ih => exact post_preserves_inv input newTxId r hp ih.1 ih.2

theorem paginateRows_pageSpec {ρ : Type} (keyOf : ρ → Nat × Nat) (pred : ρ → Bool)
    (limit : Nat) (rows : List ρ) (h1 : 1 ≤ limit) :
    PageSpec keyOf pred limit rows (paginateRows keyOf pred limit rows) := by
  refine ⟨?_, ?_, ?_, ?_⟩
  · exact List.Pairwise.sublist (List.take_sublist _ _)
      (sortRows_sorted keyOf (rows.filter pred))
  · exact List.length_take_le _ _
  · intro hlen
    have hlt : limit < (fetchedRows keyOf pred limit rows).length := by omega
    constructor
    · show (if limit < (fetchedRows keyOf pred limit rows).length then _ else _) = _
      rw [if_pos hlt]
    · show (if limit < (fetchedRows keyOf pred limit rows).length then _ else _) = _
      rw [if_pos hlt]
      have hlen2 : ((fetchedRows keyOf pred limit rows).take limit).length = limit := by
        rw [List.length_take]
        omega
      have hlast : ((fetchedRows keyOf pred limit rows).take limit).getLast? =
          (fetchedRows keyOf pred limit rows)[limit - 1]? := by
        rw [List.getLast?_eq_getElem?, hlen2, List.getElem?_take]
        rw [if_pos (by omega)]
      rw [hlast]
      have hidx : limit - 1 < (fetchedRows keyOf pred limit rows).length := by omega
      rw [List.getElem?_eq_getElem hidx]
      rfl
  · intro hshort
    have hnlt : ¬ limit < (fetchedRows keyOf pred limit rows).length := by omega
    constructor
    · show (if limit < (fetchedRows keyOf pred limit rows).length then _ else _) = _
      rw [if_neg hnlt]
    · show (if limit < (fetchedRows keyOf pred limit rows).length then _ else _) = _
      rw [if_neg hnlt]

theorem absoluteBalance_eq_abs (b : Int) : absoluteBalance b = |b| := by
  unfold absoluteBalance
  by_cases h : b < 0
  · rw [if_pos h, abs_of_neg h]
  · rw [if_neg h, abs_of_nonneg (not_lt.1 h)]

theorem accumulateTotals_aux (rows : List AccountRow) :
    ∀ t : Int × Int,
      rows.foldl (fun t row =>
        if row.balanceMinor ≤ 0 then (t.1 + absoluteBalance row.balanceMinor, t.2)
        else (t.1, t.2 + absoluteBalance row.balanceMinor)) t =
      (t.1 + ((rows.filter (fun r => decide (r.balanceMinor ≤ 0))).map
          (fun r => absoluteBalance r.balanceMinor)).sum,
       t.2 + ((rows.filter (fun r => decide (0 < r.balanceMinor))).map
          (fun r => absoluteBalance r.balanceMinor)).sum) := by
  induction rows with
  | nil =>
    intro t
    simp
  | cons r rows ih =>
    intro t
    rw [List.foldl_cons]
    by_cases hc : r.balanceMinor ≤ 0
    · rw [if_pos hc, ih]
      rw [List.filter_cons_of_pos (by simpa using hc),
          List.filter_cons_of_neg (by simpa using not_lt.2 hc),
          List.map_cons, List.sum_cons]
      simp [add_assoc]
    · rw [if_neg hc, ih]
      rw [List.filter_cons_of_neg (by simpa using hc),
          List.filter_cons_of_pos (by simpa using not_le.1 hc),
          List.map_cons, List.sum_cons]
      simp [add_assoc]

theorem accumulateTotals_eq (rows : List AccountRow) :
    accumulateTotals rows =
      (((rows.filter (fun r => decide (r.balanceMinor ≤ 0))).map
          (fun r => absoluteBalance r.balanceMinor)).sum,
       ((rows.filter (fun r => decide (0 < r.balanceMinor))).map
          (fun r => absoluteBalance r.balanceMinor)).sum) := by
  unfold accumulateTotals
  rw [accumulateTotals_aux rows (0, 0)]
  simp

theorem paginateRows_congr {ρ : Type} (keyOf : ρ → Nat × Nat) (pred : ρ → Bool)
    (limit : Nat) (rows rows2 : List ρ) (hf : rows.filter pred = rows2.filter pred) :
    paginateRows keyOf pred limit rows = paginateRows keyOf pred limit rows2 := by
  unfold paginateRows fetchedRows sortRows
  rw [hf]

/-- C7: within a postTransaction call that inserts a new transaction, the
per-account balance updates run over entriesForBalanceUpdate, whose account
ids are sorted ascending, are a permutation of the submitted entries'
account ids, and are identical for any reordering of the submitted
entries. -/
theorem balanceUpdateOrdering (entries : List PostingEntryInput) :
    List.Sorted (fun i j : Nat => i ≤ j)
      ((sortEntriesForBalanceUpdate entries).map (fun e => e.accountId)) ∧
    ((sortEntriesForBalanceUpdate entries).map (fun e => e.accountId)).Perm
      (entries.map (fun e => e.accountId)) ∧
    (∀ es : List PostingEntryInput, es.Perm entries →
      (sortEntriesForBalanceUpdate es).map (fun e => e.accountId) =
        (sortEntriesForBalanceUpdate entries).map (fun e => e.accountId)) := by
  have hs : ∀ l : List PostingEntryInput,
      List.Sorted (fun i j : Nat => i ≤ j)
        ((sortEntriesForBalanceUpdate l).map (fun e => e.accountId)) := by
    intro l
    haveI : IsTotal PostingEntryInput (fun a b => a.accountId ≤ b.accountId) :=
      ⟨fun a b => Nat.le_total _ _⟩
    haveI : IsTrans PostingEntryInput (fun a b => a.accountId ≤ b.accountId) :=
      ⟨fun a b c hab hbc => Nat.le_trans hab hbc⟩
    exact List.pairwise_map.2
      (List.sorted_insertionSort (fun a b : PostingEntryInput => a.accountId ≤ b.accountId) l)
  have hperm : ∀ l : List PostingEntryInput,
      ((sortEntriesForBalanceUpdate l).map (fun e => e.accountId)).Perm
        (l.map (fun e => e.accountId)) :=
    fun l => (List.perm_insertionSort _ l).map _
  refine ⟨hs entries, hperm entries, ?_⟩
  intro es hp
  exact List.eq_of_perm_of_sorted
    (((hperm es).trans (hp.map _)).trans (hperm entries).symm) (hs es) (hs entries)

/-- Witness: the concrete two-entry list and its swapped submission produce
the same ascending update id sequence. -/
theorem balanceUpdateOrdering_witness :
    (sortEntriesForBalanceUpdate c7EntriesSwapped).map (fun e => e.accountId) =
      (sortEntriesForBalanceUpdate c7Entries).map (fun e => e.accountId) :=
  (balanceUpdateOrdering c7Entries).2.2 c7EntriesSwapped (by decide)

/-- C9 counterexample: a database error with the numeric-range SQLSTATE
22003 (numeric_value_out_of_range, the code Postgres raises for a bigint
overflow) is not translated to INVARIANT_VIOLATION as claimed — the
repository maps it to REPOSITORY_ERROR because 22003 is absent from
CONSTRAINT_VIOLATION_CODES. -/
theorem dbErrorTranslation_counterexample :
    extractDatabaseCode numericOutOfRange = some "22003" ∧
    ("22003" ∈ CONSTRAINT_VIOLATION_CODES) = False ∧
    handleDatabaseError (.db numericOutOfRange) "post transaction" =
      { code := .REPOSITORY_ERROR, message := "Unable to post transaction",
        cause := some numericOutOfRange } := by
  refine ⟨rfl, by simp [CONSTRAINT_VIOLATION_CODES], by decide⟩

/-- C9 (amended): a non-domain error whose extracted SQLSTATE is one of the
known constraint codes — 22001 string truncation, 22007 and 22P02 type
conversion, 23502 not-null, 23503 foreign-key, 23505 unique, 23514 check —
is translated to INVARIANT_VIOLATION with the original error attached as
cause; every other non-domain error, numeric-range (22003) included,
becomes REPOSITORY_ERROR with the cause attached; domain errors pass
through unchanged. -/
theorem dbErrorTranslation (e : DbErrorLike) (de : DomainError) (op : String) :
    handleDatabaseError (.domain de) op = de ∧
    (∀ c, extractDatabaseCode e = some c → c ∈ CONSTRAINT_VIOLATION_CODES →
      handleDatabaseError (.db e) op =
        { code := .INVARIANT_VIOLATION,
          message := "Unable to " ++ op ++ ": data constraints violated",
          cause := some e }) ∧
    (∀ c, extractDatabaseCode e = some c → c ∉ CONSTRAINT_VIOLATION_CODES →
      handleDatabaseError (.db e) op =
        { code := .REPOSITORY_ERROR, message := "Unable to " ++ op, cause := some e }) ∧
    (extractDatabaseCode e = none →
      handleDatabaseError (.db e) op =
        { code := .REPOSITORY_ERROR, message := "Unable to " ++ op, cause := some e }) := by
  refine ⟨rfl, ?_, ?_, ?_⟩
  · intro c hc hmem
    simp only [handleDatabaseError, hc]
    rw [if_pos (List.elem_iff.2 hmem)]
  · intro c hc hmem
    simp only [handleDatabaseError, hc]
    rw [if_neg (fun hcontains => hmem (List.elem_iff.1 hcontains))]
  · intro hnone
    simp only [handleDatabaseError, hnone]

/-- Witness: a unique-violation code (23505) reached through a nested cause
chain is translated to INVARIANT_VIOLATION with the cause attached. -/
theorem dbErrorTranslation_witness :
    handleDatabaseError
        (.db (DbErrorLike.nested none (DbErrorLike.leaf (some "23505"))))
        "post transaction" =
      { code := .INVARIANT_VIOLATION,
        message := "Unable to post transaction: data constraints violated",
        cause := some (DbErrorLike.nested none (DbErrorLike.leaf (some "23505"))) } :=
  (dbErrorTranslation (DbErrorLike.nested none (DbErrorLike.leaf (some "23505")))
      (invariantViolation "seed") "post transaction").2.1 "23505" rfl (by decide)

/-- C8: every listing (accounts, transactions, entries) with limit in
[1, 200] fetches limit + 1 rows ordered by (createdAt ASC, id ASC); when
limit + 1 rows come back the page is exactly the first limit rows and
nextCursor encodes the (createdAt, id) of the row at index limit - 1 (the
extra row dropped); when limit or fewer rows come back all are returned and
nextCursor is null. -/
theorem listingPagination (q : PaginationQuery) (s : DBState)
    (h1 : 1 ≤ q.limit) (h2 : q.limit ≤ 200) :
    PageSpec (fun a => (a.createdAt, a.id))
      (fun a => a.tenantId == q.tenantId && cursorPredicate q.cursor a.createdAt a.id)
      q.limit s.accounts (listAccounts q s) ∧
    PageSpec (fun t => (t.createdAt, t.id))
      (fun t => t.tenantId == q.tenantId && cursorPredicate q.cursor t.createdAt t.id)
      q.limit s.transactions (listTransactions q s) ∧
    PageSpec (fun e => (e.createdAt, e.id))
      (fun e => e.tenantId == q.tenantId && cursorPredicate q.cursor e.createdAt e.id)
      q.limit s.entries (listEntries q s) :=
  ⟨paginateRows_pageSpec _ _ _ _ h1, paginateRows_pageSpec _ _ _ _ h1,
   paginateRows_pageSpec _ _ _ _ h1⟩

/-- Witness: the three-account state with limit 2 satisfies the page
behaviour for the accounts listing. -/
theorem listingPagination_witness :
    PageSpec (fun a : AccountRow => (a.createdAt, a.id))
      (fun a => a.tenantId == c8Query.tenantId &&
        cursorPredicate c8Query.cursor a.createdAt a.id)
      c8Query.limit c8State.accounts (listAccounts c8Query c8State) :=
  (listingPagination c8Query c8State (by decide) (by decide)).1

/-- C1 counterexample: the balanced two-entry input whose amounts are all
zero (amountMinor ≤ 0) is not rejected — postTransaction commits it,
inserting a transaction row and two entry rows, so the claimed amountMinor
> 0 pre-validation does not exist on the write path. -/
theorem preValidation_counterexample :
    c1Input.entries.any (fun e => decide (e.amountMinor ≤ 0)) = true ∧
    postTransaction c1Input 99 c1State =
      .ok ({ transactionId := 99, created := true }, c1Posted) ∧
    c1Posted.entries ≠ c1State.entries := by
  refine ⟨by decide, by decide, by decide⟩

/-- C1 (amended): before any database statement, postTransaction
pre-validates exactly two conditions — entries.length at least 2 and equal
DEBIT and CREDIT sums — failing with INVARIANT_VIOLATION and writing
nothing when either is violated; every input meeting those two checks
passes pre-validation (per-entry amountMinor > 0 and entry-currency
agreement are not pre-validated). -/
theorem preValidation (input : PostTransactionInput) (newTxId : Nat) (s : DBState) :
    ((input.entries.length < 2 ∨
        sumDirection .DEBIT input.entries ≠ sumDirection .CREDIT input.entries) →
      ∃ e, postTransaction input newTxId s = .error e ∧
        e.code = .INVARIANT_VIOLATION) ∧
    (2 ≤ input.entries.length →
      sumDirection .DEBIT input.entries = sumDirection .CREDIT input.entries →
      assertBalancedEntries input.entries = .ok ()) := by
  constructor
  · intro h
    by_cases h2 : input.entries.length < 2
    · refine ⟨invariantViolation "transaction must have at least 2 entries", ?_, rfl⟩
      have ha : assertBalancedEntries input.entries =
          .error (invariantViolation "transaction must have at least 2 entries") := by
        unfold assertBalancedEntries
        rw [if_pos h2]
      unfold postTransaction
      rw [ha]
      rfl
    · have h3 : sumDirection .DEBIT input.entries ≠ sumDirection .CREDIT input.entries := by
        rcases h with h | h
        · exact absurd h h2
        · exact h
      refine ⟨invariantViolation "total debits must equal total credits", ?_, rfl⟩
      have ha : assertBalancedEntries input.entries =
          .error (invariantViolation "total debits must equal total credits") := by
        unfold assertBalancedEntries
        rw [if_neg h2, if_pos h3]
      unfold postTransaction
      rw [ha]
      rfl
  · intro hlen hsum
    unfold assertBalancedEntries
    rw [if_neg (by omega), if_neg (fun hne => hne hsum)]

/-- Witness: the unbalanced concrete input (debits 100, credits 99) is
rejected before any database statement with INVARIANT_VIOLATION. -/
theorem preValidation_witness :
    ∃ e, postTransaction c1Unbalanced 5 c1State = .error e ∧
      e.code = .INVARIANT_VIOLATION :=
  (preValidation c1Unbalanced 5 c1State).1 (Or.inr (by decide))

/-- C2 counterexample: an input whose (tenantId, reference) equals the
committed transaction but which fails pre-validation (a single entry) does
not return the existing id with created = false — it throws
INVARIANT_VIOLATION, so the claim does not hold for every input with a
matching key. -/
theorem idempotentReturn_counterexample :
    (∃ t ∈ c2State.transactions,
      t.tenantId = c2SingleEntryInput.tenantId ∧
      t.reference = c2SingleEntryInput.reference) ∧
    postTransaction c2SingleEntryInput 9 c2State =
      .error (invariantViolation "transaction must have at least 2 entries") := by
  refine ⟨by decide, by decide⟩

/-- C2 (amended): for every input that passes pre-validation and whose
(tenantId, reference) key resolves to a committed transaction t,
postTransaction returns transactionId t.id with created = false and leaves
the state exactly unchanged (no transaction rows, no entry rows, no balance
changes); every further pre-validated call with the same key returns the
same transactionId deterministically. -/
theorem idempotentReturn (input : PostTransactionInput) (newTxId : Nat) (s : DBState)
    (t : TransactionRow)
    (hb : assertBalancedEntries input.entries = .ok ())
    (hf : findTransactionByKey input.tenantId input.reference s.transactions = some t) :
    postTransaction input newTxId s = .ok ({ transactionId := t.id, created := false }, s) ∧
    (∀ (input2 : PostTransactionInput) (n2 : Nat),
      input2.tenantId = input.tenantId → input2.reference = input.reference →
      assertBalancedEntries input2.entries = .ok () →
      postTransaction input2 n2 s = .ok ({ transactionId := t.id, created := false }, s)) := by
  refine ⟨postTransaction_conflict input newTxId s t hb hf, ?_⟩
  intro input2 n2 ht hr hb2
  exact postTransaction_conflict input2 n2 s t hb2 (by rw [ht, hr]; exact hf)

/-- Witness: retrying reference r1 against the state holding transaction 5
returns id 5 with created = false and the unchanged state. -/
theorem idempotentReturn_witness :
    postTransaction c2RetryInput 9 c2State =
      .ok ({ transactionId := c2Tx.id, created := false }, c2State) :=
  (idempotentReturn c2RetryInput 9 c2State c2Tx (by decide) (by decide)).1

/-- C10: the conflict path never inspects the submitted entry list — any two
pre-validated inputs sharing the committed (tenantId, reference) key return
the same existing transactionId with created = false and perform no writes,
whatever their accounts, directions, amounts or currency. -/
theorem retryIgnoresPayload (input1 input2 : PostTransactionInput) (n1 n2 : Nat)
    (s : DBState) (t : TransactionRow)
    (hf : findTransactionByKey input1.tenantId input1.reference s.transactions = some t)
    (ht : input2.tenantId = input1.tenantId) (hr : input2.reference = input1.reference)
    (hb1 : assertBalancedEntries input1.entries = .ok ())
    (hb2 : assertBalancedEntries input2.entries = .ok ()) :
    postTransaction input1 n1 s = .ok ({ transactionId := t.id, created := false }, s) ∧
    postTransaction input2 n2 s = .ok ({ transactionId := t.id, created := false }, s) :=
  ⟨postTransaction_conflict input1 n1 s t hb1 hf,
   postTransaction_conflict input2 n2 s t hb2 (by rw [ht, hr]; exact hf)⟩

/-- Witness: the divergent retry (different accounts 41 and 42 that exist in
no state, different currency, different amounts — it would fail the
balance-update account matching if posted fresh) still resolves to
transaction 5 with created = false and an unchanged state. -/
theorem retryIgnoresPayload_witness :
    postTransaction c2RetryInput 21 c2State =
      .ok ({ transactionId := c2Tx.id, created := false }, c2State) ∧
    postTransaction c10Divergent 22 c2State =
      .ok ({ transactionId := c2Tx.id, created := false }, c2State) :=
  retryIgnoresPayload c2RetryInput c10Divergent 21 22 c2State c2Tx
    (by decide) (by decide) (by decide) (by decide) (by decide)

/-- C4: atomicity of the write path — every error of the transactional
callback propagates out of postTransaction (the database transaction
aborts, so the caller keeps the prior state: zero new transaction rows,
zero new entry rows, unchanged balances), and every successful return is
all-or-nothing: created = false returns the state exactly unchanged,
created = true commits exactly one transaction row, every entry row, and
the full balance delta of every entry — no partial state is ever
returned. -/
theorem postingAtomicity (input : PostTransactionInput) (n : Nat) (s : DBState) :
    (∀ e, postTransactionTx input n s = .error e →
      assertBalancedEntries input.entries = .ok () →
      postTransaction input n s = .error (handleDatabaseError e "post transaction")) ∧
    (∀ r s2, postTransaction input n s = .ok (r, s2) →
      (r.created = false ∧ s2 = s) ∨
      (r.created = true ∧
        s2.ledgers = s.ledgers ∧
        s2.transactions = s.transactions ++ [newTransactionRow input n] ∧
        s2.entries = s.entries ++ input.entries.map (toEntryRow input n) ∧
        s2.accounts = s.accounts.map (fun a =>
          { a with balanceMinor := a.balanceMinor + matchedDelta input input.entries a }))) := by
  constructor
  · intro e he hb
    unfold postTransaction
    rw [hb, he]
  · intro r s2 h
    rcases postTransaction_ok_cases h with ⟨h1, h2, _⟩ | ⟨h1, _, h3, h4, h5, _, h7⟩
    · exact Or.inl ⟨h1, h2⟩
    · exact Or.inr ⟨h1, h3, h4, h5, h7⟩

/-- Witness: the posting that touches the EUR account with a USD transaction
fails inside the database transaction and surfaces as the account
ledger/currency mismatch INVARIANT_VIOLATION. -/
theorem postingAtomicity_witness :
    postTransaction c4Input 99 c4State =
      .error (handleDatabaseError
        (RepoException.domain (invariantViolation
          "Unable to post transaction: account ledger/currency mismatch"))
        "post transaction") :=
  (postingAtomicity c4Input 99 c4State).1
    (RepoException.domain (invariantViolation
      "Unable to post transaction: account ledger/currency mismatch"))
    (by decide) (by decide)

/-- C3: after any sequence of successful postings from a state with zero
balances and no entries, every account balance equals the signed sum of its
committed entries (CREDIT positive, DEBIT negative); the per-entry delta is
negative amountMinor for DEBIT and positive for CREDIT; the balance update
matches id, tenantId, ledgerId and currency simultaneously and fails with
the account ledger/currency mismatch INVARIANT_VIOLATION when no row
matches. -/
theorem balanceLaw (s0 s : DBState)
    (hnd : (s0.accounts.map (fun a => a.id)).Nodup)
    (hz : ∀ a ∈ s0.accounts, a.balanceMinor = 0)
    (he : s0.entries = [])
    (hr : Reaches s0 s) :
    (∀ a ∈ s.accounts, a.balanceMinor = signedEntrySum s.entries a.id) ∧
    (∀ (input : PostTransactionInput) (e : PostingEntryInput) (a : AccountRow),
      accountMatches input e a = true ↔
        (a.id = e.accountId ∧ a.tenantId = input.tenantId ∧
         a.ledgerId = input.ledgerId ∧ a.currency = input.currency)) ∧
    (∀ (input : PostTransactionInput) (e : PostingEntryInput)
        (accounts : List AccountRow),
      accounts.filter (accountMatches input e) = [] →
      updateAccountForEntry input accounts e = .error (.domain (invariantViolation
        "Unable to post transaction: account ledger/currency mismatch"))) ∧
    (∀ e : PostingEntryInput,
      entryDelta e = if e.direction = .DEBIT then -e.amountMinor else e.amountMinor) := by
  refine ⟨?_, ?_, ?_, fun e => rfl⟩
  · have hbal0 : ∀ a ∈ s0.accounts, a.balanceMinor = signedEntrySum s0.entries a.id := by
      intro a ha
      rw [hz a ha, he]
      rfl
    exact (reaches_inv hr hnd hbal0).2
  · intro input e a
    unfold accountMatches
    simp [Bool.and_eq_true, beq_iff_eq, and_assoc]
  · intro input e accounts hfil
    simp only [updateAccountForEntry, hfil]
    rfl

/-- Witness: after the concrete posting of 100, the debited account carries
balance -100, the signed sum of its committed entries. -/
theorem balanceLaw_witness :
    (mkAccount 1 7 3 "USD" (-100)).balanceMinor =
      signedEntrySum c3Posted.entries (mkAccount 1 7 3 "USD" (-100)).id :=
  (balanceLaw c3Start c3Posted (by decide) (by decide) rfl
    (Reaches.step c3Input 99 { transactionId := 99, created := true }
      (Reaches.refl c3Start) (by decide))).1 (mkAccount 1 7 3 "USD" (-100)) (by decide)

/-- C6: getTrialBalance classifies every account with balance at or below
zero (zero included) as DEBIT normal and every positive balance as CREDIT
normal, reports and accumulates absolute values into the two totals, throws
REPOSITORY_ERROR when the totals differ, and otherwise returns the accounts
ordered by (createdAt, id) with the matching totals. -/
theorem trialBalanceClassification (q : TrialBalanceQuery) (s : DBState)
    (hl : (s.ledgers.find? (fun l => l.id == q.ledgerId && l.tenantId == q.tenantId)).isSome
      = true) :
    (∀ row : AccountRow,
      ((toTrialBalanceAccount row).normalBalance = .DEBIT ↔ row.balanceMinor ≤ 0) ∧
      ((toTrialBalanceAccount row).normalBalance = .CREDIT ↔ 0 < row.balanceMinor) ∧
      (toTrialBalanceAccount row).balanceMinor = |row.balanceMinor|) ∧
    (accumulateTotals (trialBalanceAccountRows q s)).1 =
      (((trialBalanceAccountRows q s).filter (fun r => decide (r.balanceMinor ≤ 0))).map
        (fun r => |r.balanceMinor|)).sum ∧
    (accumulateTotals (trialBalanceAccountRows q s)).2 =
      (((trialBalanceAccountRows q s).filter (fun r => decide (0 < r.balanceMinor))).map
        (fun r => |r.balanceMinor|)).sum ∧
    List.Sorted (fun a b : AccountRow => keyLE (a.createdAt, a.id) (b.createdAt, b.id))
      (trialBalanceAccountRows q s) ∧
    ((accumulateTotals (trialBalanceAccountRows q s)).1 ≠
        (accumulateTotals (trialBalanceAccountRows q s)).2 →
      getTrialBalance q s = .error (repositoryError "trial balance totals mismatch")) ∧
    ((accumulateTotals (trialBalanceAccountRows q s)).1 =
        (accumulateTotals (trialBalanceAccountRows q s)).2 →
      getTrialBalance q s = .ok
        { ledgerId := q.ledgerId,
          accounts := (trialBalanceAccountRows q s).map toTrialBalanceAccount,
          totalDebitsMinor := (accumulateTotals (trialBalanceAccountRows q s)).1,
          totalCreditsMinor := (accumulateTotals (trialBalanceAccountRows q s)).2 }) := by
  rcases Option.isSome_iff_exists.1 hl with ⟨l, hfind⟩
  have habs : ∀ rows : List AccountRow,
      rows.map (fun r => absoluteBalance r.balanceMinor) = rows.map (fun r => |r.balanceMinor|) :=
    fun rows => List.map_congr_left (fun r _ => absoluteBalance_eq_abs _)
  refine ⟨?_, ?_, ?_, ?_, ?_, ?_⟩
  · intro row
    refine ⟨?_, ?_, absoluteBalance_eq_abs _⟩
    · by_cases hc : row.balanceMinor ≤ 0 <;> simp [toTrialBalanceAccount, hc] <;> omega
    · by_cases hc : row.balanceMinor ≤ 0 <;> simp [toTrialBalanceAccount, hc] <;> omega
  · simp [accumulateTotals_eq, absoluteBalance_eq_abs]
  · simp [accumulateTotals_eq, absoluteBalance_eq_abs]
  · exact sortRows_sorted (fun a : AccountRow => (a.createdAt, a.id)) _
  · intro hne
    simp only [getTrialBalance, hfind]
    rw [if_pos hne]
  · intro heq
    simp only [getTrialBalance, hfind]
    rw [if_neg (fun hne => hne heq)]

/-- Witness: the ledger with balances -100, 100 and 0 yields equal totals of
100 on both sides and the ordered classified account list. -/
theorem trialBalanceClassification_witness :
    getTrialBalance c6Query c6State = .ok
      { ledgerId := c6Query.ledgerId,
        accounts := (trialBalanceAccountRows c6Query c6State).map toTrialBalanceAccount,
        totalDebitsMinor := (accumulateTotals (trialBalanceAccountRows c6Query c6State)).1,
        totalCreditsMinor := (accumulateTotals (trialBalanceAccountRows c6Query c6State)).2 } :=
  (trialBalanceClassification c6Query c6State (by decide)).2.2.2.2.2 (by decide)

/-- C5: tenant isolation of the read path — every row returned by
listAccounts, listTransactions, listEntries, findLedgersByTenant, the
tenant-scoped ledger lookup and getTrialBalance executed for tenant A
belongs to A, and each of these results is unchanged between any two states
that agree on A's rows (in particular when another tenant's rows are added
or removed). -/
theorem tenantIsolation (A lid : Nat) (q : PaginationQuery) (tq : TrialBalanceQuery)
    (s s2 : DBState)
    (hqA : q.tenantId = A) (htqA : tq.tenantId = A)
    (hLed : s.ledgers.filter (fun l => l.tenantId == A) =
      s2.ledgers.filter (fun l => l.tenantId == A))
    (hAcc : s.accounts.filter (fun a => a.tenantId == A) =
      s2.accounts.filter (fun a => a.tenantId == A))
    (hTx : s.transactions.filter (fun t => t.tenantId == A) =
      s2.transactions.filter (fun t => t.tenantId == A))
    (hEnt : s.entries.filter (fun e => e.tenantId == A) =
      s2.entries.filter (fun e => e.tenantId == A)) :
    (∀ a ∈ (listAccounts q s).data, a.tenantId = A) ∧
    (∀ t ∈ (listTransactions q s).data, t.tenantId = A) ∧
    (∀ e ∈ (listEntries q s).data, e.tenantId = A) ∧
    (∀ l ∈ findLedgersByTenant A s, l.tenantId = A) ∧
    (∀ l, findLedgerByIdForTenant A lid s = some l → l.tenantId = A) ∧
    (∀ tb, getTrialBalance tq s = .ok tb →
      ∀ acc ∈ tb.accounts, ∃ row ∈ s.accounts,
        row.tenantId = A ∧ acc = toTrialBalanceAccount row) ∧
    listAccounts q s = listAccounts q s2 ∧
    listTransactions q s = listTransactions q s2 ∧
    listEntries q s = listEntries q s2 ∧
    findLedgersByTenant A s = findLedgersByTenant A s2 ∧
    findLedgerByIdForTenant A lid s = findLedgerByIdForTenant A lid s2 ∧
    getTrialBalance tq s = getTrialBalance tq s2 := by
  subst hqA
  have hmemAcc : ∀ a ∈ (listAccounts q s).data, a.tenantId = q.tenantId := by
    intro a ha
    have hpred := (mem_paginate_data _ _ _ _ a ha).2
    rw [Bool.and_eq_true] at hpred
    exact beq_iff_eq.mp hpred.1
  have hmemTx : ∀ t ∈ (listTransactions q s).data, t.tenantId = q.tenantId := by
    intro t ht
    have hpred := (mem_paginate_data _ _ _ _ t ht).2
    rw [Bool.and_eq_true] at hpred
    exact beq_iff_eq.mp hpred.1
  have hmemEnt : ∀ e ∈ (listEntries q s).data, e.tenantId = q.tenantId := by
    intro e heo
    have hpred := (mem_paginate_data _ _ _ _ e heo).2
    rw [Bool.and_eq_true] at hpred
    exact beq_iff_eq.mp hpred.1
  have hmemLed : ∀ l ∈ findLedgersByTenant q.tenantId s, l.tenantId = q.tenantId := by
    intro l hlmem
    have h1 : l ∈ s.ledgers.filter (fun l2 => l2.tenantId == q.tenantId) :=
      (sortRows_perm _ _).mem_iff.1 hlmem
    exact beq_iff_eq.mp (List.mem_filter.1 h1).2
  have hmemLookup : ∀ l, findLedgerByIdForTenant q.tenantId lid s = some l →
      l.tenantId = q.tenantId := by
    intro l hfl
    have hp := List.find?_some hfl
    rw [Bool.and_eq_true] at hp
    exact beq_iff_eq.mp hp.1
  have hmemTB : ∀ tb, getTrialBalance tq s = .ok tb →
      ∀ acc ∈ tb.accounts, ∃ row ∈ s.accounts,
        row.tenantId = q.tenantId ∧ acc = toTrialBalanceAccount row := by
    intro tb htb acc hacc
    have haccs : tb.accounts = (trialBalanceAccountRows tq s).map toTrialBalanceAccount := by
      cases hfind : s.ledgers.find?
          (fun l => l.id == tq.ledgerId && l.tenantId == tq.tenantId) with
      | none =>
        simp only [getTrialBalance, hfind] at htb
        exact Except.noConfusion htb
      | some l0 =>
        simp only [getTrialBalance, hfind] at htb
        by_cases hne : (accumulateTotals (trialBalanceAccountRows tq s)).1 ≠
            (accumulateTotals (trialBalanceAccountRows tq s)).2
        · rw [if_pos hne] at htb
          exact Except.noConfusion htb
        · rw [if_neg hne] at htb
          have hinj := Except.ok.inj htb
          rw [← hinj]
    rw [haccs] at hacc
    rcases List.mem_map.1 hacc with ⟨row, hrow, rfl⟩
    have h1 : row ∈ s.accounts.filter
        (fun a => a.ledgerId == tq.ledgerId && a.tenantId == tq.tenantId) :=
      (sortRows_perm _ _).mem_iff.1 hrow
    have h2 := List.mem_filter.1 h1
    have h3 := h2.2
    rw [Bool.and_eq_true] at h3
    exact ⟨row, h2.1, by rw [beq_iff_eq.mp h3.2, htqA], rfl⟩
  have hconvA : ∀ l : List AccountRow,
      l.filter (fun a => a.tenantId == q.tenantId && cursorPredicate q.cursor a.createdAt a.id)
        = (l.filter (fun a => a.tenantId == q.tenantId)).filter
            (fun a => cursorPredicate q.cursor a.createdAt a.id) := by
    intro l
    rw [List.filter_filter]
    exact List.filter_congr (fun a _ => Bool.and_comm _ _)
  have hconvT : ∀ l : List TransactionRow,
      l.filter (fun t => t.tenantId == q.tenantId && cursorPredicate q.cursor t.createdAt t.id)
        = (l.filter (fun t => t.tenantId == q.tenantId)).filter
            (fun t => cursorPredicate q.cursor t.createdAt t.id) := by
    intro l
    rw [List.filter_filter]
    exact List.filter_congr (fun t _ => Bool.and_comm _ _)
  have hconvE : ∀ l : List EntryRow,
      l.filter (fun e => e.tenantId == q.tenantId && cursorPredicate q.cursor e.createdAt e.id)
        = (l.filter (fun e => e.tenantId == q.tenantId)).filter
            (fun e => cursorPredicate q.cursor e.createdAt e.id) := by
    intro l
    rw [List.filter_filter]
    exact List.filter_congr (fun e _ => Bool.and_comm _ _)
  have heqA : listAccounts q s = listAccounts q s2 := by
    apply paginateRows_congr
    rw [hconvA s.accounts, hconvA s2.accounts, hAcc]
  have heqT : listTransactions q s = listTransactions q s2 := by
    apply paginateRows_congr
    rw [hconvT s.transactions, hconvT s2.transactions, hTx]
  have heqE : listEntries q s = listEntries q s2 := by
    apply paginateRows_congr
    rw [hconvE s.entries, hconvE s2.entries, hEnt]
  have heqLedgers : findLedgersByTenant q.tenantId s = findLedgersByTenant q.tenantId s2 := by
    unfold findLedgersByTenant
    rw [hLed]
  have heqLookup : findLedgerByIdForTenant q.tenantId lid s =
      findLedgerByIdForTenant q.tenantId lid s2 := by
    unfold findLedgerByIdForTenant
    rw [find?_and_eq_find?_filter, find?_and_eq_find?_filter, hLed]
  have hLedT : s.ledgers.filter (fun l => l.tenantId == tq.tenantId) =
      s2.ledgers.filter (fun l => l.tenantId == tq.tenantId) := by
    rw [htqA]
    exact hLed
  have hAccT : s.accounts.filter (fun a => a.tenantId == tq.tenantId) =
      s2.accounts.filter (fun a => a.tenantId == tq.tenantId) := by
    rw [htqA]
    exact hAcc
  have hfindEq : s.ledgers.find? (fun l => l.id == tq.ledgerId && l.tenantId == tq.tenantId) =
      s2.ledgers.find? (fun l => l.id == tq.ledgerId && l.tenantId == tq.tenantId) := by
    have hpt : ∀ t : List LedgerRow,
        t.find? (fun l => l.id == tq.ledgerId && l.tenantId == tq.tenantId)
          = t.find? (fun l => l.tenantId == tq.tenantId && l.id == tq.ledgerId) := by
      intro t
      congr 1
      funext l
      exact Bool.and_comm _ _
    rw [hpt s.ledgers, hpt s2.ledgers, find?_and_eq_find?_filter,
        find?_and_eq_find?_filter, hLedT]
  have hrowsEq : trialBalanceAccountRows tq s = trialBalanceAccountRows tq s2 := by
    unfold trialBalanceAccountRows sortRows
    congr 1
    rw [← List.filter_filter, ← List.filter_filter, hAccT]
  have heqTB : getTrialBalance tq s = getTrialBalance tq s2 := by
    unfold getTrialBalance
    rw [hfindEq, hrowsEq]
  exact ⟨hmemAcc, hmemTx, hmemEnt, hmemLed, hmemLookup, hmemTB,
    heqA, heqT, heqE, heqLedgers, heqLookup, heqTB⟩

/-- Witness: interleaving tenant 8 rows into the tenant 7 state leaves the
tenant 7 trial balance unchanged. -/
theorem tenantIsolation_witness :
    getTrialBalance c5TrialQuery c5Base = getTrialBalance c5TrialQuery c5WithB :=
  (tenantIsolation 7 3 c5Query c5TrialQuery c5Base c5WithB rfl rfl
    (by decide) (by decide) (by decide) (by decide)).2.2.2.2.2.2.2.2.2.2.2

end LuxLedger
